import Mathlib

/-!
Verification of the Resilient Wallet Operation Layer of the
capacitor-smart-account-demo repository.

The definitions below are a shallow embedding of the TypeScript sources:

* `src/App.tsx` — session lifecycle controller, operation timeout guard,
  error classifier, numeric balance decoder/formatter, event log;
* `src/kit.ts` — resilient storage facade (`runStorage` fallback latch);
* the Capacitor storage adapter (`CapacitorStorageAdapter`) and base64
  credential codec (`toBase64` / `fromBase64`).

Pure functions become Lean functions; stateful fragments become explicit
state passing; JavaScript BigInt arithmetic becomes `Int` / `Nat`;
promise races become explicit outcome oracles; fallible code returns
`Option` / `Except`.
-/

/-! ## Operations, log entries (App.tsx lines 8-16, 53, 435-437, 481-484) -/

/-- Operation union type from App.tsx line 16. -/
inductive Operation where
  | restore
  | reauth
  | create
  | connect
  | transfer
  | disconnect
deriving DecidableEq, Repr

/-- String rendered for an `Operation` in template literals. -/
def Operation.label : Operation → String
  | .restore => "restore"
  | .reauth => "reauth"
  | .create => "create"
  | .connect => "connect"
  | .transfer => "transfer"
  | .disconnect => "disconnect"

/-- Log entry severity (App.tsx line 8). -/
inductive LogType where
  | info
  | success
  | error
deriving DecidableEq, Repr

/-- Log entry record (App.tsx lines 10-14). -/
structure LogEntry where
  message : String
  type : LogType
  timestamp : String
deriving DecidableEq, Repr

/-- Maximum number of retained log entries (App.tsx line 53). -/
def MAX_LOGS : Nat := 14

/-- Embedding of `pushLog` (App.tsx lines 435-437): prepend the new entry,
then keep only the first `MAX_LOGS` entries.  The wall-clock timestamp
produced by `nowTime()` is passed in explicitly. -/
def pushLog (message : String) (type : LogType) (timestamp : String)
    (current : List LogEntry) : List LogEntry :=
  ({ message := message, type := type, timestamp := timestamp } :: current).take MAX_LOGS

/-- Embedding of `appendEventLog` (App.tsx lines 481-484); its body is
identical to `pushLog`. -/
def appendEventLog (message : String) (type : LogType) (timestamp : String)
    (current : List LogEntry) : List LogEntry :=
  ({ message := message, type := type, timestamp := timestamp } :: current).take MAX_LOGS

/-! ## Timeout constants (App.tsx lines 54-60, kit.ts lines 8-9) -/

def RESTORE_TIMEOUT_MS : Nat := 10000
def REAUTH_TIMEOUT_MS : Nat := 30000
def CREATE_TIMEOUT_MS : Nat := 90000
def CONNECT_TIMEOUT_MS : Nat := 45000
def TRANSFER_TIMEOUT_MS : Nat := 60000
def DISCONNECT_TIMEOUT_MS : Nat := 10000
def BALANCE_TIMEOUT_MS : Nat := 15000
def STORAGE_OP_TIMEOUT_MS : Nat := 8000

/-! ## Error values flowing through catch clauses

Heterogeneous JavaScript error values are embedded as a closed tagged
union.  Each constructor records exactly the data the classifier in
`App.tsx` can observe. -/

/-- Plugin error codes (App.tsx lines 17-28, `src/passkey/errors.ts`). -/
inductive PluginErrorCode where
  | UNKNOWN_ERROR
  | CANCELLED
  | DOM_ERROR
  | UNSUPPORTED_ERROR
  | TIMEOUT
  | NO_CREDENTIAL
  | INVALID_INPUT
  | RPID_VALIDATION_ERROR
  | PROVIDER_CONFIG_ERROR
  | INTERRUPTED
  | NO_ACTIVITY
deriving DecidableEq, Repr

/-- SmartAccountError codes observed by `normalizeErrorMessage`
(App.tsx lines 223-236); `otherCode` stands for every other member of the
external enumeration. -/
inductive SmartAccountErrorCode where
  | INVALID_ADDRESS
  | INVALID_AMOUNT
  | WALLET_NOT_CONNECTED
  | TRANSACTION_TIMEOUT
  | otherCode
deriving DecidableEq, Repr

/-- A caught JavaScript value, as the classifier in `App.tsx` can
distinguish it: an `OperationTimeoutError` (App.tsx lines 64-74), a
`PasskeyError` carrying a plugin error code, a `SmartAccountError`, a plain
`Error` with a message, a non-`Error` object exposing a string `message`,
a bare string, or anything else. -/
inductive ErrValue where
  | timeoutErr (operation : Operation) (timeoutMs : Nat)
  | pluginErr (code : PluginErrorCode) (message : String)
  | smartAccountErr (code : SmartAccountErrorCode) (message : String)
  | errorMsg (message : String)
  | objectWithMessage (message : String)
  | stringErr (message : String)
  | nonError
deriving DecidableEq, Repr

/-- Embedding of `getErrorMessage` (App.tsx lines 94-107). -/
def getErrorMessage : ErrValue → String
  | .timeoutErr op tm => op.label ++ " timed out after " ++ Nat.repr tm ++ "ms"
  | .pluginErr _ message => message
  | .smartAccountErr _ message => message
  | .errorMsg message => message
  | .objectWithMessage message => message
  | .stringErr _ => "Passkey operation failed"
  | .nonError => "Passkey operation failed"

/-- Embedding of `getUnknownErrorMessage` (App.tsx lines 266-283). -/
def getUnknownErrorMessage (error : ErrValue) (fallback : String) : String
  :=
  match error with
  | .timeoutErr op tm => op.label ++ " timed out after " ++ Nat.repr tm ++ "ms"
  | .pluginErr _ message => message
  | .smartAccountErr _ message => message
  | .errorMsg message => message
  | .objectWithMessage message => if message.length > 0 then message else fallback
  | .stringErr message => if message.length > 0 then message else fallback
  | .nonError => fallback

/-- Substring test on character lists, the embedding of JavaScript
`String.prototype.includes`. -/
def listContainsSub (hay pattern : List Char) : Bool :=
  if pattern.isPrefixOf hay then true
  else
    match hay with
    | [] => false
    | _ :: t => listContainsSub t pattern

/-- String-level `includes`. -/
def strIncludes (s pattern : String) : Bool :=
  listContainsSub s.data pattern.data

/-- Embedding of `normalizeErrorMessage` (App.tsx lines 181-246).  The
branch order mirrors the source: timeout errors first, then plugin error
codes, then SmartAccountError codes, then generic `Error` values, then the
fallback. -/
def normalizeErrorMessage (operation : Operation) (error : ErrValue) : String :=
  match error with
  | .timeoutErr op _ =>
    match op with
    | .restore => "Session restore timed out. You can continue manually."
    | .reauth => "Re-authentication timed out. Try Connect Wallet again."
    | .create => "Wallet creation timed out. Check passkey prompt visibility and network/relayer status, then retry."
    | .connect => "Wallet connection timed out. Try Connect Wallet again."
    | .transfer => "Transfer timed out before confirmation. Check network status and retry."
    | .disconnect => "Disconnect timed out. Try again."
  | .pluginErr code _ =>
    match code with
    | .CANCELLED => "Passkey request was cancelled or no credential was selected."
    | .DOM_ERROR => "Passkey request was cancelled or no credential was selected."
    | .NO_CREDENTIAL => "Passkey request was cancelled or no credential was selected."
    | .TIMEOUT => "Passkey request timed out. Try again."
    | .RPID_VALIDATION_ERROR => "Passkey rpId validation failed. Check app rpId, associated domains, and asset links."
    | .PROVIDER_CONFIG_ERROR => "Passkey provider is not configured on this device."
    | .UNSUPPORTED_ERROR => "Passkeys are not supported on this device configuration."
    | .INVALID_INPUT => "Invalid input for " ++ operation.label ++ ": " ++ getErrorMessage error
    | _ => getErrorMessage error
  | .smartAccountErr code message =>
    match code with
    | .INVALID_ADDRESS => "Invalid Stellar address. Use a valid G... or C... address."
    | .INVALID_AMOUNT => "Invalid amount. Enter a positive numeric value."
    | .WALLET_NOT_CONNECTED => "No wallet connected. Connect a wallet before this action."
    | .TRANSACTION_TIMEOUT => "Transaction confirmation timed out."
    | .otherCode => message
  | .errorMsg message =>
    if strIncludes message "contract not found on-chain" then
      "Wallet contract is not deployed on-chain yet. Create and deploy a wallet first."
    else message
  | .objectWithMessage _ => "Unknown error"
  | .stringErr _ => "Unknown error"
  | .nonError => "Unknown error"

/-! ## Operation timeout guard (App.tsx lines 64-74 and 139-160)

`withOperationTimeout` races the wrapped promise against a timer.  The
embedding represents the non-deterministic race by an explicit oracle:
either the operation settles first (with a value or a failure), or the
timer fires first.  Because `setTimeout` offers no abort hook, a losing
operation still runs to completion; its late outcome is passed alongside
and must be discarded by the guard. -/

/-- Settlement of a promise: fulfilled with a value or rejected with an
error value. -/
inductive Outcome (T : Type) where
  | value (t : T)
  | failure (e : ErrValue)
deriving DecidableEq, Repr

/-- Which side of the race in `withOperationTimeout` settles first. -/
inductive RaceWinner (T : Type) where
  | settled (o : Outcome T)
  | timerFired
deriving DecidableEq, Repr

/-- Embedding of `withOperationTimeout` (App.tsx lines 139-160).  The
first argument of type `RaceWinner` says which side settled first; the
`lateOutcome` argument is the eventual settlement of the wrapped promise
when the timer won (the promise is not cancelled), and is discarded. -/
def withOperationTimeout {T : Type} (operation : Operation) (timeoutMs : Nat)
    (winner : RaceWinner T) (lateOutcome : Option (Outcome T)) : Outcome T :=
  match winner with
  | .settled o => o
  | .timerFired =>
    let _ := lateOutcome
    .failure (.timeoutErr operation timeoutMs)

/-! ## Resilient storage facade latch (kit.ts lines 89-111) -/

/-- Which backing store served a storage call. -/
inductive Backend where
  | persistent
  | memory
deriving DecidableEq, Repr

/-- Embedding of one `runStorage` call (kit.ts lines 95-111).  The state
is the `usingMemoryFallback` flag; `persistentFails` says whether the
persistent-store attempt would fail or exceed `STORAGE_OP_TIMEOUT_MS` if
it were attempted now.  Returns the backend that served the call and the
new flag. -/
def runStorage (usingMemoryFallback : Bool) (persistentFails : Bool) :
    Backend × Bool :=
  if usingMemoryFallback then (.memory, usingMemoryFallback)
  else if persistentFails then (.memory, true)
  else (.persistent, false)

/-- A sequence of `runStorage` calls, returning which backend served each
call in order. -/
def runStorageTrace : Bool → List Bool → List Backend
  | _, [] => []
  | flag, f :: rest =>
    let step := runStorage flag f
    step.1 :: runStorageTrace step.2 rest

theorem runStorageTrace_length (flag : Bool) (calls : List Bool) :
    (runStorageTrace flag calls).length = calls.length := by
  induction calls generalizing flag with
  | nil => rfl
  | cons f rest ih => simp [runStorageTrace, ih]

theorem runStorageTrace_true (calls : List Bool) :
    runStorageTrace true calls = List.replicate calls.length .memory := by
  induction calls with
  | nil => rfl
  | cons f rest ih => simp [runStorageTrace, runStorage, ih, List.replicate]

theorem runStorageTrace_true_getD (rest : List Bool) (k : Nat)
    (h : k < rest.length) :
    (runStorageTrace true rest).getD k .persistent = .memory := by
  rw [runStorageTrace_true]
  induction rest generalizing k with
  | nil => simp at h
  | cons f r ih =>
    cases k with
    | zero => simp [List.replicate]
    | succ k' =>
      simp only [List.length_cons, List.replicate, List.getD_cons_succ]
      exact ih k' (by simpa using h)

theorem runStorageTrace_memory_from (calls : List Bool) (i j : Nat)
    (hij : i ≤ j) (hj : j < calls.length) (hi : calls.getD i false = true) :
    (runStorageTrace false calls).getD j .persistent = .memory := by
  induction calls generalizing i j with
  | nil => simp at hj
  | cons f rest ih =>
    cases i with
    | zero =>
      simp only [List.getD_cons_zero] at hi
      subst hi
      simp only [runStorageTrace, runStorage, Bool.false_eq_true, if_false, if_true]
      cases j with
      | zero => simp
      | succ j => exact runStorageTrace_true_getD rest j (by simpa using hj)
    | succ i =>
      cases j with
      | zero => omega
      | succ j =>
        simp only [List.getD_cons_succ] at hi
        have hj2 : j < rest.length := by simpa using hj
        cases f with
        | false =>
          simp only [runStorageTrace, runStorage, Bool.false_eq_true, if_false,
            List.getD_cons_succ]
          exact ih i j (by omega) hj2 hi
        | true =>
          simp only [runStorageTrace, runStorage, Bool.false_eq_true, if_false, if_true,
            List.getD_cons_succ]
          exact runStorageTrace_true_getD rest j hj2

/-- C5: for every sequence of storage-facade calls: once any
persistent-store call fails or exceeds the storage timeout (call `i` has
`persistentFails = true`, or the latch was already tripped before it),
that call and every subsequent storage call of any kind is served by the
in-memory store; the facade never uses the persistent store again within
the process lifetime, even if the persistent store would now succeed
(later calls' `persistentFails` bits are unconstrained). -/
theorem claim_c5_storage_fallback_latch (calls : List Bool) (i j : Nat)
    (hij : i ≤ j) (hj : j < calls.length) (hi : calls.getD i false = true) :
    (runStorageTrace false calls).getD j .persistent = Backend.memory :=
  runStorageTrace_memory_from calls i j hij hj hi

/-- Witness for C5: in the call sequence `[ok, fail, ok]` the second call
trips the latch, and the third call is served by memory although its
persistent attempt would have succeeded. -/
theorem claim_c5_storage_fallback_latch_witness :
    (runStorageTrace false [false, true, false]).getD 2 .persistent = Backend.memory :=
  claim_c5_storage_fallback_latch [false, true, false] 1 2 (by decide) (by decide) (by decide)

/-- C8: the timeout guard `withOperationTimeout` propagates the outcome
(value or failure) of an operation that settles before the timer
unchanged; if the timer fires first it rejects with the timeout failure
`ErrValue.timeoutErr operation timeoutMs`, which carries the operation
label and the timeout; and the underlying operation is not cancelled —
its late outcome, whatever it is, is discarded without changing the
guard's result. -/
theorem claim_c8_timeout_guard {T : Type} (operation : Operation) (timeoutMs : Nat)
    (o : Outcome T) (late late2 : Option (Outcome T)) :
    withOperationTimeout operation timeoutMs (.settled o) late = o ∧
    withOperationTimeout operation timeoutMs .timerFired late =
      .failure (.timeoutErr operation timeoutMs) ∧
    withOperationTimeout operation timeoutMs .timerFired late =
      withOperationTimeout operation timeoutMs .timerFired late2 := by
  exact ⟨rfl, rfl, rfl⟩

/-! ## Controller state and operation mutual exclusion (App.tsx lines 419-484)

The React component state relevant to the Session Lifecycle Controller is
collected in one record; the `set*` hooks become field updates. -/

/-- Transfer sub-state (App.tsx lines 30-45). -/
inductive TransferState where
  | idle
  | success (hash : String) (ledger : Option Nat) (amount : Int) (recipient : String)
  | error (error : String) (amount : Int) (recipient : String) (hash : Option String)
deriving DecidableEq, Repr

/-- Balance sub-state (App.tsx lines 47-51). -/
inductive BalanceState where
  | idle
  | loading
  | ready (valueXlm : String) (updatedAt : Nat)
  | error (error : String)
deriving DecidableEq, Repr

/-- Session snapshot persisted in localStorage (App.tsx lines 76-80). -/
structure SessionSnapshot where
  contractId : String
  credentialId : String
  updatedAt : Nat
deriving DecidableEq, Repr

/-- Controller state (App.tsx lines 423-433 plus the localStorage
snapshot slot used by `writeSessionSnapshot` / `clearSessionSnapshot`). -/
structure AppState where
  contractId : Option String
  credentialId : Option String
  busy : Option Operation
  errorBanner : Option String
  logs : List LogEntry
  transferState : TransferState
  balance : BalanceState
  sessionSnapshot : Option SessionSnapshot
deriving DecidableEq, Repr

/-- Embedding of `runOperation` (App.tsx lines 439-456).  A handler is a
function from the state after `setBusy(operation); setErrorBanner(null)`
to the state it leaves behind plus `some e` when it throws `e`.  The
result records the final state and whether the handler ran at all.
`timestamp` stands for `nowTime()` in the error log entry. -/
def runOperation (s : AppState) (operation : Operation)
    (handler : AppState → AppState × Option ErrValue) (timestamp : String) :
    AppState × Bool :=
  if s.busy.isSome then (s, false)
  else
    let s1 := { s with busy := some operation, errorBanner := none }
    let r := handler s1
    match r.2 with
    | none => ({ r.1 with busy := none }, true)
    | some e =>
      let message := normalizeErrorMessage operation e
      ({ r.1 with
          errorBanner := some message,
          logs := pushLog (operation.label ++ ": " ++ message) .error timestamp r.1.logs,
          busy := none }, true)

/-- C9: whenever an operation is in flight (`busy` is non-null), any new
operation request is a silent no-op: its handler does not run (the
returned flag is `false`), and no session, transfer, error-banner, busy,
log, balance or snapshot state changes — the whole state is returned
unchanged, and nothing is queued.  Hence at most one operation is in
flight at a time. -/
theorem claim_c9_mutual_exclusion (s : AppState) (operation : Operation)
    (handler : AppState → AppState × Option ErrValue) (timestamp : String)
    (h : s.busy.isSome) :
    runOperation s operation handler timestamp = (s, false) := by
  simp [runOperation, h]

/-- Witness for C9: a concrete request while a transfer is in flight
leaves the state untouched and does not run the handler. -/
theorem claim_c9_mutual_exclusion_witness :
    runOperation
      { contractId := some "C1", credentialId := some "K1",
        busy := some .transfer, errorBanner := none, logs := [],
        transferState := .idle, balance := .idle, sessionSnapshot := none }
      .connect (fun s1 => (s1, none)) "t" =
      ({ contractId := some "C1", credentialId := some "K1",
         busy := some .transfer, errorBanner := none, logs := [],
         transferState := .idle, balance := .idle, sessionSnapshot := none }, false) :=
  claim_c9_mutual_exclusion _ .connect _ "t" (by decide)

/-- C10: every update to the event log preserves the invariant that the
log holds at most `MAX_LOGS = 14` entries ordered newest first: each
append prepends exactly one entry and truncates the list to its first 14
elements; `appendEventLog` performs the identical update. -/
theorem claim_c10_log_bound (message : String) (type : LogType) (timestamp : String)
    (current : List LogEntry) :
    pushLog message type timestamp current =
      (({ message := message, type := type, timestamp := timestamp } : LogEntry)
        :: current).take MAX_LOGS ∧
    (pushLog message type timestamp current).length ≤ MAX_LOGS ∧
    (pushLog message type timestamp current).head? =
      some { message := message, type := type, timestamp := timestamp } ∧
    (pushLog message type timestamp current).tail = current.take (MAX_LOGS - 1) ∧
    appendEventLog message type timestamp current = pushLog message type timestamp current := by
  refine ⟨rfl, ?_, ?_, ?_, rfl⟩
  · simp [pushLog]
  · simp [pushLog, MAX_LOGS]
  · simp [pushLog, MAX_LOGS]

/-! ## Disconnect (App.tsx lines 725-734) -/

/-- Embedding of the handler body of `handleDisconnect` (App.tsx lines
726-733).  It first awaits the guarded `kit.disconnect()`; if that await
throws (underlying failure, or the `DISCONNECT_TIMEOUT_MS` timer firing
first), the handler rethrows at once and none of the subsequent state
updates run.  On success it clears `contractId` and `credentialId`,
removes the persisted session snapshot, resets the transfer and balance
sub-states to idle, and pushes a success log entry. -/
def handleDisconnectBody (race : RaceWinner Unit) (late : Option (Outcome Unit))
    (timestamp : String) (s : AppState) : AppState × Option ErrValue :=
  match withOperationTimeout .disconnect DISCONNECT_TIMEOUT_MS race late with
  | .failure e => (s, some e)
  | .value _ =>
    ({ s with
        contractId := none,
        credentialId := none,
        sessionSnapshot := none,
        transferState := .idle,
        balance := .idle,
        logs := pushLog "Disconnected from wallet." .success timestamp s.logs }, none)

/-- Embedding of `handleDisconnect` (App.tsx lines 725-734): the body
above run through `runOperation`. -/
def handleDisconnect (s : AppState) (race : RaceWinner Unit)
    (late : Option (Outcome Unit)) (timestamp : String) : AppState × Bool :=
  runOperation s .disconnect (handleDisconnectBody race late timestamp) timestamp

/-- Counterexample to C1 as stated: a disconnect attempt that completes
with its timer firing first (the underlying `kit.disconnect` exceeded its
timeout) does NOT clear the controller state.  In the concrete run below
the attempt completes — `runOperation` ran the handler, classified the
error and returned to non-busy — yet `contractId`, `credentialId`, the
session snapshot and the transfer sub-state keep their old values. -/
theorem claim_c1_counterexample :
    (handleDisconnect
        { contractId := some "CDLZ", credentialId := some "KEY1",
          busy := none, errorBanner := none, logs := [],
          transferState := .success "deadbeef" (some 7) 1 "GABC",
          balance := .ready "2.5" 99, sessionSnapshot := some ⟨"CDLZ", "KEY1", 42⟩ }
        .timerFired none "t").1.contractId = some "CDLZ" ∧
    (handleDisconnect
        { contractId := some "CDLZ", credentialId := some "KEY1",
          busy := none, errorBanner := none, logs := [],
          transferState := .success "deadbeef" (some 7) 1 "GABC",
          balance := .ready "2.5" 99, sessionSnapshot := some ⟨"CDLZ", "KEY1", 42⟩ }
        .timerFired none "t").1.credentialId = some "KEY1" ∧
    (handleDisconnect
        { contractId := some "CDLZ", credentialId := some "KEY1",
          busy := none, errorBanner := none, logs := [],
          transferState := .success "deadbeef" (some 7) 1 "GABC",
          balance := .ready "2.5" 99, sessionSnapshot := some ⟨"CDLZ", "KEY1", 42⟩ }
        .timerFired none "t").1.sessionSnapshot = some ⟨"CDLZ", "KEY1", 42⟩ ∧
    (handleDisconnect
        { contractId := some "CDLZ", credentialId := some "KEY1",
          busy := none, errorBanner := none, logs := [],
          transferState := .success "deadbeef" (some 7) 1 "GABC",
          balance := .ready "2.5" 99, sessionSnapshot := some ⟨"CDLZ", "KEY1", 42⟩ }
        .timerFired none "t").1.transferState = .success "deadbeef" (some 7) 1 "GABC" := by
  refine ⟨rfl, rfl, rfl, rfl⟩

/-- C1 (amended): once the disconnect attempt completes, the controller
clears `contractId` and `credentialId`, removes the persisted session
snapshot, and resets the transfer and balance sub-states to idle — but
only when the guarded `kit.disconnect` call settles successfully before
its timeout.  When the underlying call fails or exceeds its timeout, the
`await` throws before any of the clearing statements run: the connection
state, snapshot, transfer and balance sub-states are left unchanged and
the classified error message is surfaced in the banner.  In both cases
`busy` returns to null. -/
theorem claim_c1_disconnect (s : AppState) (timestamp : String)
    (hbusy : s.busy = none) :
    ((handleDisconnect s (.settled (.value ())) none timestamp).1.contractId = none ∧
     (handleDisconnect s (.settled (.value ())) none timestamp).1.credentialId = none ∧
     (handleDisconnect s (.settled (.value ())) none timestamp).1.sessionSnapshot = none ∧
     (handleDisconnect s (.settled (.value ())) none timestamp).1.transferState = .idle ∧
     (handleDisconnect s (.settled (.value ())) none timestamp).1.balance = .idle ∧
     (handleDisconnect s (.settled (.value ())) none timestamp).1.busy = none) ∧
    (∀ (race : RaceWinner Unit) (late : Option (Outcome Unit)) (e : ErrValue),
      withOperationTimeout .disconnect DISCONNECT_TIMEOUT_MS race late = .failure e →
      (handleDisconnect s race late timestamp).1.contractId = s.contractId ∧
      (handleDisconnect s race late timestamp).1.credentialId = s.credentialId ∧
      (handleDisconnect s race late timestamp).1.sessionSnapshot = s.sessionSnapshot ∧
      (handleDisconnect s race late timestamp).1.transferState = s.transferState ∧
      (handleDisconnect s race late timestamp).1.balance = s.balance ∧
      (handleDisconnect s race late timestamp).1.errorBanner =
        some (normalizeErrorMessage .disconnect e) ∧
      (handleDisconnect s race late timestamp).1.busy = none) := by
  have hb : ¬ s.busy.isSome := by simp [hbusy]
  constructor
  · simp [handleDisconnect, runOperation, hb, handleDisconnectBody, withOperationTimeout]
  · intro race late e hrace
    simp [handleDisconnect, runOperation, hb, handleDisconnectBody, hrace]

/-- Witness for C1 (amended): a successful disconnect from a concrete
connected state clears everything; a timed-out disconnect from the same
state leaves the connection fields unchanged. -/
theorem claim_c1_disconnect_witness :
    ((handleDisconnect
        { contractId := some "CDLZ", credentialId := some "KEY1",
          busy := none, errorBanner := none, logs := [],
          transferState := .idle, balance := .ready "2.5" 99,
          sessionSnapshot := some ⟨"CDLZ", "KEY1", 42⟩ }
        (.settled (.value ())) none "t").1.contractId = none ∧
     (handleDisconnect
        { contractId := some "CDLZ", credentialId := some "KEY1",
          busy := none, errorBanner := none, logs := [],
          transferState := .idle, balance := .ready "2.5" 99,
          sessionSnapshot := some ⟨"CDLZ", "KEY1", 42⟩ }
        (.settled (.value ())) none "t").1.credentialId = none ∧
     (handleDisconnect
        { contractId := some "CDLZ", credentialId := some "KEY1",
          busy := none, errorBanner := none, logs := [],
          transferState := .idle, balance := .ready "2.5" 99,
          sessionSnapshot := some ⟨"CDLZ", "KEY1", 42⟩ }
        (.settled (.value ())) none "t").1.sessionSnapshot = none ∧
     (handleDisconnect
        { contractId := some "CDLZ", credentialId := some "KEY1",
          busy := none, errorBanner := none, logs := [],
          transferState := .idle, balance := .ready "2.5" 99,
          sessionSnapshot := some ⟨"CDLZ", "KEY1", 42⟩ }
        (.settled (.value ())) none "t").1.transferState = .idle ∧
     (handleDisconnect
        { contractId := some "CDLZ", credentialId := some "KEY1",
          busy := none, errorBanner := none, logs := [],
          transferState := .idle, balance := .ready "2.5" 99,
          sessionSnapshot := some ⟨"CDLZ", "KEY1", 42⟩ }
        (.settled (.value ())) none "t").1.balance = .idle ∧
     (handleDisconnect
        { contractId := some "CDLZ", credentialId := some "KEY1",
          busy := none, errorBanner := none, logs := [],
          transferState := .idle, balance := .ready "2.5" 99,
          sessionSnapshot := some ⟨"CDLZ", "KEY1", 42⟩ }
        (.settled (.value ())) none "t").1.busy = none) :=
  (claim_c1_disconnect
    { contractId := some "CDLZ", credentialId := some "KEY1",
      busy := none, errorBanner := none, logs := [],
      transferState := .idle, balance := .ready "2.5" 99,
      sessionSnapshot := some ⟨"CDLZ", "KEY1", 42⟩ } "t" rfl).1

/-! ## Credential codec (storage adapter, `toBase64` / `fromBase64`)

The adapter turns a credential's binary `publicKey` into text by building
a binary string (one char per byte) and applying the platform base64
encoder `btoa`; decoding applies `atob` and reads the char codes back.
Since `String.fromCharCode` / `charCodeAt` are mutually inverse on byte
values, the composite is standard base64 over the byte sequence, embedded
here directly on byte lists (bytes as `Nat` below 256). -/

/-- Standard base64 alphabet used by `btoa` / `atob`. -/
def base64Alphabet : List Char :=
  ['A', 'B', 'C', 'D', 'E', 'F', 'G', 'H', 'I', 'J', 'K', 'L', 'M',
   'N', 'O', 'P', 'Q', 'R', 'S', 'T', 'U', 'V', 'W', 'X', 'Y', 'Z',
   'a', 'b', 'c', 'd', 'e', 'f', 'g', 'h', 'i', 'j', 'k', 'l', 'm',
   'n', 'o', 'p', 'q', 'r', 's', 't', 'u', 'v', 'w', 'x', 'y', 'z',
   '0', '1', '2', '3', '4', '5', '6', '7', '8', '9', '+', '/']

/-- Char for a sextet value. -/
def encodeB64Char (k : Nat) : Char :=
  base64Alphabet.getD k '='

/-- Sextet value of an alphabet char (`atob` table lookup). -/
def decodeB64Char (c : Char) : Nat :=
  base64Alphabet.indexOf c

/-- Base64 encoding of a byte list, three bytes to four chars, with
`=`-padding on a trailing group of one or two bytes (the behaviour of
`btoa` on the binary string built by `toBase64`). -/
def toBase64Chars : List Nat → List Char
  | [] => []
  | [a] =>
    let n := a * 65536
    [encodeB64Char (n / 262144), encodeB64Char (n / 4096 % 64), '=', '=']
  | [a, b] =>
    let n := a * 65536 + b * 256
    [encodeB64Char (n / 262144), encodeB64Char (n / 4096 % 64),
     encodeB64Char (n / 64 % 64), '=']
  | a :: b :: c :: rest =>
    let n := a * 65536 + b * 256 + c
    encodeB64Char (n / 262144) :: encodeB64Char (n / 4096 % 64) ::
      encodeB64Char (n / 64 % 64) :: encodeB64Char (n % 64) :: toBase64Chars rest

/-- Embedding of `toBase64` (storage adapter lines 22-35): bytes to
base64 text. -/
def toBase64 (input : List Nat) : String :=
  ⟨toBase64Chars input⟩

/-- Base64 decoding of a char list, four chars to three bytes, with the
`=`-padded tails producing one or two bytes (the behaviour of `atob`
followed by per-char `charCodeAt`). -/
def fromBase64Chars : List Char → List Nat
  | c1 :: c2 :: c3 :: c4 :: rest =>
    if c3 = '=' then
      let n := decodeB64Char c1 * 262144 + decodeB64Char c2 * 4096
      [n / 65536]
    else if c4 = '=' then
      let n := decodeB64Char c1 * 262144 + decodeB64Char c2 * 4096 +
        decodeB64Char c3 * 64
      [n / 65536, n / 256 % 256]
    else
      let n := decodeB64Char c1 * 262144 + decodeB64Char c2 * 4096 +
        decodeB64Char c3 * 64 + decodeB64Char c4
      n / 65536 :: n / 256 % 256 :: n % 256 :: fromBase64Chars rest
  | _ => []

/-- Embedding of `fromBase64` (storage adapter lines 37-56): base64 text
back to bytes. -/
def fromBase64 (input : String) : List Nat :=
  fromBase64Chars input.data

theorem decodeB64Char_encodeB64Char_fin :
    ∀ k : Fin 64, decodeB64Char (encodeB64Char k.val) = k.val := by
  decide

theorem decodeB64Char_encodeB64Char (k : Nat) (h : k < 64) :
    decodeB64Char (encodeB64Char k) = k :=
  decodeB64Char_encodeB64Char_fin ⟨k, h⟩

theorem encodeB64Char_ne_pad_fin : ∀ k : Fin 64, encodeB64Char k.val ≠ '=' := by
  decide

theorem encodeB64Char_ne_pad (k : Nat) (h : k < 64) : encodeB64Char k ≠ '=' :=
  encodeB64Char_ne_pad_fin ⟨k, h⟩

theorem fromBase64Chars_toBase64Chars (bytes : List Nat)
    (h : ∀ x ∈ bytes, x < 256) :
    fromBase64Chars (toBase64Chars bytes) = bytes := by
  induction bytes using toBase64Chars.induct with
  | case1 => rfl
  | case2 a =>
    have ha : a < 256 := h a (by simp)
    have d1 := decodeB64Char_encodeB64Char (a * 65536 / 262144) (by omega)
    have d2 := decodeB64Char_encodeB64Char (a * 65536 / 4096 % 64) (by omega)
    simp only [toBase64Chars, fromBase64Chars, if_true, d1, d2]
    simp only [List.cons.injEq, and_true]
    omega
  | case3 a b =>
    have ha : a < 256 := h a (by simp)
    have hb : b < 256 := h b (by simp)
    have e3 := encodeB64Char_ne_pad ((a * 65536 + b * 256) / 64 % 64) (by omega)
    have d1 := decodeB64Char_encodeB64Char ((a * 65536 + b * 256) / 262144) (by omega)
    have d2 := decodeB64Char_encodeB64Char ((a * 65536 + b * 256) / 4096 % 64) (by omega)
    have d3 := decodeB64Char_encodeB64Char ((a * 65536 + b * 256) / 64 % 64) (by omega)
    simp only [toBase64Chars, fromBase64Chars, e3, if_false, if_true, d1, d2, d3]
    simp only [List.cons.injEq, and_true]
    omega
  | case4 a b c rest ih =>
    have ha : a < 256 := h a (by simp)
    have hb : b < 256 := h b (by simp)
    have hc : c < 256 := h c (by simp)
    have e3 := encodeB64Char_ne_pad ((a * 65536 + b * 256 + c) / 64 % 64) (by omega)
    have e4 := encodeB64Char_ne_pad ((a * 65536 + b * 256 + c) % 64) (by omega)
    have d1 := decodeB64Char_encodeB64Char ((a * 65536 + b * 256 + c) / 262144) (by omega)
    have d2 := decodeB64Char_encodeB64Char ((a * 65536 + b * 256 + c) / 4096 % 64) (by omega)
    have d3 := decodeB64Char_encodeB64Char ((a * 65536 + b * 256 + c) / 64 % 64) (by omega)
    have d4 := decodeB64Char_encodeB64Char ((a * 65536 + b * 256 + c) % 64) (by omega)
    simp only [toBase64Chars, fromBase64Chars, e3, e4, if_false, d1, d2, d3, d4]
    rw [ih (fun x hx => h x (by simp [hx]))]
    simp only [List.cons.injEq, and_true]
    omega

/-- C6: for every byte sequence `b` (each element below 256, as produced
by a `Uint8Array`), the credential codec satisfies
`fromBase64 (toBase64 b) = b`: the storage adapter's binary-to-text
transform and its inverse round-trip. -/
theorem claim_c6_codec_roundtrip (b : List Nat) (h : ∀ x ∈ b, x < 256) :
    fromBase64 (toBase64 b) = b :=
  fromBase64Chars_toBase64Chars b h

/-- Witness for C6 at a concrete five-byte sequence (exercising a
two-pad tail group). -/
theorem claim_c6_codec_roundtrip_witness :
    fromBase64 (toBase64 [72, 101, 108, 108, 111]) = [72, 101, 108, 108, 111] :=
  claim_c6_codec_roundtrip [72, 101, 108, 108, 111] (by decide)

/-! ## Capacitor storage adapter (storage adapter lines 72-251)

The Capacitor Preferences key-value store holds JSON strings.  The
embedding types the store as a partial map from keys to parsed values,
with a `malformed` constructor standing for any stored string that fails
`JSON.parse` / credential deserialization; `serialize-then-store` of a
well-formed record round-trips through JSON, so storing is embedded as
storing the parsed value itself.  The adapter is constructed with the
demo's prefix `smart-account-demo` (kit.ts line 90), which is fixed
here. -/

/-- Credential record, with the fields the adapter logic reads; further
metadata fields of the external `StoredCredential` type are carried
opaquely by `metadata`. -/
structure StoredCredential where
  credentialId : String
  contractId : String
  publicKey : List Nat
  metadata : String
deriving DecidableEq, Repr

/-- Session record `{contractId, credentialId, expiresAt}`. -/
structure StoredSession where
  contractId : String
  credentialId : String
  expiresAt : Nat
deriving DecidableEq, Repr

/-- A parsed stored value, or `malformed` for content that fails to
parse back. -/
inductive StoredValue where
  | credVal (c : StoredCredential)
  | indexVal (ids : List String)
  | sessionVal (s : StoredSession)
  | malformed
deriving DecidableEq, Repr

/-- The Preferences store: string keys to stored values. -/
def Prefs : Type := String → Option StoredValue

/-- `Preferences.set`. -/
def Prefs.set (p : Prefs) (key : String) (v : StoredValue) : Prefs :=
  fun k => if k = key then some v else p k

/-- A store with nothing persisted yet. -/
def emptyPrefs : Prefs := fun _ => none

namespace CapacitorStorageAdapter

/-- Key of a credential record (storage adapter lines 218-220). -/
def credentialKey (credentialId : String) : String :=
  "smart-account-demo:credential:" ++ credentialId

/-- Key of the enumeration index (storage adapter lines 222-224). -/
def indexKey : String :=
  "smart-account-demo:credentials-index"

/-- Key of the session record (storage adapter lines 226-228). -/
def sessionKey : String :=
  "smart-account-demo:session"

/-- Embedding of `getCredentialIndex` (storage adapter lines 230-243):
the stored index list, or `[]` when absent or unparsable. -/
def getCredentialIndex (p : Prefs) : List String :=
  match p indexKey with
  | some (.indexVal ids) => ids
  | _ => []

/-- Embedding of `setCredentialIndex` (storage adapter lines 245-250). -/
def setCredentialIndex (p : Prefs) (index : List String) : Prefs :=
  Prefs.set p indexKey (.indexVal index)

/-- Embedding of `save` (storage adapter lines 80-94): store the
serialized credential under its key, then append the id to the index
only when it is not already present. -/
def save (p : Prefs) (credential : StoredCredential) : Prefs :=
  let index := getCredentialIndex p
  let p1 := Prefs.set p (credentialKey credential.credentialId) (.credVal credential)
  if credential.credentialId ∈ index then p1
  else setCredentialIndex p1 (index ++ [credential.credentialId])

/-- Embedding of `get` (storage adapter lines 96-109): the parsed record,
or `none` when the key is absent or its content fails to parse. -/
def get (p : Prefs) (credentialId : String) : Option StoredCredential :=
  match p (credentialKey credentialId) with
  | some (.credVal c) => some c
  | _ => none

/-- The read loop of `getAll` (storage adapter lines 121-126): per-id
reads, dropping ids whose record is absent or unparsable. -/
def getAllLoop (p : Prefs) : List String → List StoredCredential
  | [] => []
  | id :: rest =>
    match get p id with
    | some c => c :: getAllLoop p rest
    | none => getAllLoop p rest

/-- Embedding of `getAll` (storage adapter lines 116-129). -/
def getAll (p : Prefs) : List StoredCredential :=
  getAllLoop p (getCredentialIndex p)

theorem credentialKey_ne_indexKey (id : String) : credentialKey id ≠ indexKey := by
  intro hEq
  have h : ((("smart-account-demo:credential:" : String) ++ id).data).getD 29 'x' =
      (indexKey.data).getD 29 'x' := by
    rw [show (("smart-account-demo:credential:" : String) ++ id) = indexKey from hEq]
  rw [String.data_append] at h
  rw [List.getD_append _ _ _ _ (by decide : (29 : Nat) < ("smart-account-demo:credential:" : String).data.length)] at h
  revert h
  decide

theorem getCredentialIndex_set_credential (p : Prefs) (id : String)
    (v : StoredValue) :
    getCredentialIndex (Prefs.set p (credentialKey id) v) = getCredentialIndex p := by
  unfold getCredentialIndex Prefs.set
  rw [if_neg (fun hEq => credentialKey_ne_indexKey id hEq.symm)]

theorem getCredentialIndex_save (p : Prefs) (c : StoredCredential) :
    getCredentialIndex (save p c) =
      (if c.credentialId ∈ getCredentialIndex p then getCredentialIndex p
       else getCredentialIndex p ++ [c.credentialId]) := by
  unfold save
  by_cases hmem : c.credentialId ∈ getCredentialIndex p
  · simp only [hmem, if_true]
    exact getCredentialIndex_set_credential p c.credentialId _
  · simp only [hmem, if_false]
    unfold setCredentialIndex getCredentialIndex Prefs.set
    simp

theorem index_nodup_mem_foldl_save (creds : List StoredCredential) :
    ∀ p : Prefs, (getCredentialIndex p).Nodup →
      (getCredentialIndex (creds.foldl save p)).Nodup ∧
      ∀ id, id ∈ getCredentialIndex (creds.foldl save p) ↔
        (id ∈ getCredentialIndex p ∨ id ∈ creds.map StoredCredential.credentialId) := by
  induction creds with
  | nil => intro p hnd; exact ⟨hnd, fun id => by simp⟩
  | cons c rest ih =>
    intro p hnd
    have hstep : (getCredentialIndex (save p c)).Nodup ∧
        ∀ id, id ∈ getCredentialIndex (save p c) ↔
          (id ∈ getCredentialIndex p ∨ id = c.credentialId) := by
      rw [getCredentialIndex_save]
      by_cases hmem : c.credentialId ∈ getCredentialIndex p
      · simp only [hmem, if_true]
        exact ⟨hnd, fun id => by
          constructor
          · exact fun hin => Or.inl hin
          · rintro (hin | rfl)
            · exact hin
            · exact hmem⟩
      · simp only [hmem, if_false]
        constructor
        · exact List.Nodup.append hnd (List.nodup_singleton _)
            (by simpa [List.disjoint_singleton] using hmem)
        · intro id; simp [List.mem_append, or_comm]
    have := ih (save p c) hstep.1
    refine ⟨this.1, fun id => ?_⟩
    rw [List.foldl_cons] at *
    rw [this.2 id, hstep.2 id]
    simp only [List.map_cons, List.mem_cons]
    tauto

theorem getAllLoop_filterMap (p : Prefs) (ids : List String) :
    getAllLoop p ids = ids.filterMap (get p) := by
  induction ids with
  | nil => rfl
  | cons id rest ih =>
    simp only [getAllLoop, List.filterMap_cons]
    cases get p id <;> simp [ih]

theorem length_filterMap_sub_countP {α β : Type} (f : α → Option β) (l : List α) :
    (l.filterMap f).length = l.length - l.countP (fun a => (f a).isNone) := by
  induction l with
  | nil => rfl
  | cons a rest ih =>
    have hle := List.countP_le_length (fun x => (f x).isNone) (l := rest)
    cases hfa : f a with
    | none => simp [List.filterMap_cons, hfa, List.countP_cons, ih]
    | some b =>
      simp only [List.filterMap_cons, hfa, List.length_cons, List.countP_cons,
        Option.isNone_some, Bool.false_eq_true, if_false, Nat.add_zero, ih]
      omega

/-- C7: for every sequence of `save` calls on the storage adapter
(starting from an empty store), the credential-id enumeration index
contains each saved `credentialId` exactly once — re-saving an existing
id does not duplicate its index entry, and nothing else appears in the
index — and `getAll` returns exactly the indexed records that parse,
dropping unparsable entries without aborting the call (its result length
is the index length minus the number of entries that fail to parse). -/
theorem claim_c7_index_and_getAll (creds : List StoredCredential) :
    ((getCredentialIndex (creds.foldl save emptyPrefs)).Nodup ∧
     (∀ id, id ∈ getCredentialIndex (creds.foldl save emptyPrefs) ↔
        id ∈ creds.map StoredCredential.credentialId) ∧
     (∀ c ∈ creds,
        (getCredentialIndex (creds.foldl save emptyPrefs)).count c.credentialId = 1)) ∧
    (∀ p : Prefs,
      getAll p = (getCredentialIndex p).filterMap (get p) ∧
      (getAll p).length = (getCredentialIndex p).length -
        (getCredentialIndex p).countP (fun id => (get p id).isNone)) := by
  have hempty : (getCredentialIndex emptyPrefs).Nodup := by
    simp [getCredentialIndex, emptyPrefs]
  have hmain := index_nodup_mem_foldl_save creds emptyPrefs hempty
  have hmem : ∀ id, id ∈ getCredentialIndex (creds.foldl save emptyPrefs) ↔
      id ∈ creds.map StoredCredential.credentialId := by
    intro id
    rw [hmain.2 id]
    simp [getCredentialIndex, emptyPrefs]
  refine ⟨⟨hmain.1, hmem, fun c hc => ?_⟩, fun p => ⟨?_, ?_⟩⟩
  · exact List.count_eq_one_of_mem hmain.1
      ((hmem c.credentialId).2 (List.mem_map_of_mem _ hc))
  · exact getAllLoop_filterMap p _
  · rw [getAll, getAllLoop_filterMap]
    exact length_filterMap_sub_countP _ _

/-- Witness for C7: saving the same credential twice leaves exactly one
index entry for its id. -/
theorem claim_c7_index_and_getAll_witness :
    (getCredentialIndex
      ([⟨"id1", "C1", [1, 2], "m"⟩, ⟨"id1", "C1", [1, 2], "m"⟩].foldl save emptyPrefs)).count
        "id1" = 1 :=
  (claim_c7_index_and_getAll
    [⟨"id1", "C1", [1, 2], "m"⟩, ⟨"id1", "C1", [1, 2], "m"⟩]).1.2.2
    ⟨"id1", "C1", [1, 2], "m"⟩ (by simp)

end CapacitorStorageAdapter

/-! ## Numeric value decoder and fixed-point formatter
(App.tsx lines 256-264 and 297-362)

`formatStroopsAsXlm` renders a BigInt stroop amount as a fixed-point XLM
string; the tagged-value switch of `fetchNativeBalanceXlm` is embedded as
`decodeBalance`.  JavaScript `padStart(7, \'0\')`, the regex replace of
trailing zeros, and BigInt `toString` become `padStart7`,
`stripTrailingZeros` and `Nat.repr`. -/

def STROOPS_PER_XLM : Nat := 10000000

def padStart7 (s : String) : String :=
  ⟨List.replicate (7 - s.data.length) '0' ++ s.data⟩

def stripTrailingZeros (s : String) : String :=
  ⟨(s.data.reverse.dropWhile (fun c => c == '0')).reverse⟩

def formatStroopsAsXlm (stroops : Int) : String :=
  let absolute := stroops.natAbs
  let whole := absolute / STROOPS_PER_XLM
  let fractionalRaw := padStart7 (Nat.repr (absolute % STROOPS_PER_XLM))
  let fractional := stripTrailingZeros fractionalRaw
  (if stroops < 0 then "-" else "") ++ Nat.repr whole ++
    (if fractional = "" then "" else "." ++ fractional)

theorem toDigitsCore_acc (fuel : Nat) :
    ∀ (n : Nat) (ds : List Char),
      Nat.toDigitsCore 10 fuel n ds = Nat.toDigitsCore 10 fuel n [] ++ ds := by
  induction fuel with
  | zero => intro n ds; simp [Nat.toDigitsCore]
  | succ fuel ih =>
    intro n ds
    simp only [Nat.toDigitsCore]
    by_cases h : n / 10 = 0
    · simp [h]
    · simp only [h, if_false]
      rw [ih (n / 10) [Nat.digitChar (n % 10)], ih (n / 10) (Nat.digitChar (n % 10) :: ds)]
      simp

theorem toDigitsCore_fuel (n : Nat) :
    ∀ (fuel1 fuel2 : Nat) (ds : List Char), n < fuel1 → n < fuel2 →
      Nat.toDigitsCore 10 fuel1 n ds = Nat.toDigitsCore 10 fuel2 n ds := by
  induction n using Nat.strongRecOn with
  | _ n ih =>
    intro fuel1 fuel2 ds h1 h2
    cases fuel1 with
    | zero => omega
    | succ f1 =>
      cases fuel2 with
      | zero => omega
      | succ f2 =>
        simp only [Nat.toDigitsCore]
        by_cases h : n / 10 = 0
        · simp [h]
        · simp only [h, if_false]
          exact ih (n / 10) (by omega) f1 f2 _ (by omega) (by omega)

theorem digitChar_val (k : Nat) (h : k < 10) : (Nat.digitChar k).toNat - 48 = k := by
  interval_cases k <;> decide

theorem readBack_toDigits (n : Nat) :
    List.foldl (fun a c => a * 10 + (c.toNat - 48)) 0 (Nat.toDigits 10 n) = n := by
  induction n using Nat.strongRecOn with
  | _ n ih =>
    unfold Nat.toDigits
    simp only [Nat.toDigitsCore]
    by_cases h : n / 10 = 0
    · simp only [h, if_true]
      simp only [List.foldl]
      have := digitChar_val (n % 10) (by omega)
      omega
    · simp only [h, if_false]
      rw [toDigitsCore_acc]
      rw [toDigitsCore_fuel (n / 10) n (n / 10 + 1) [] (by omega) (by omega)]
      rw [List.foldl_append]
      have hrec := ih (n / 10) (by omega)
      unfold Nat.toDigits at hrec
      rw [hrec]
      simp only [List.foldl]
      have := digitChar_val (n % 10) (by omega)
      omega

theorem digitChar_is_digit (k : Nat) (h : k < 10) :
    48 ≤ (Nat.digitChar k).toNat ∧ (Nat.digitChar k).toNat ≤ 57 := by
  interval_cases k <;> decide

theorem toDigitsCore_digits (fuel : Nat) :
    ∀ (n : Nat) (ds : List Char), (∀ c ∈ ds, 48 ≤ c.toNat ∧ c.toNat ≤ 57) →
      ∀ c ∈ Nat.toDigitsCore 10 fuel n ds, 48 ≤ c.toNat ∧ c.toNat ≤ 57 := by
  induction fuel with
  | zero => intro n ds hds; simpa [Nat.toDigitsCore] using hds
  | succ fuel ih =>
    intro n ds hds
    simp only [Nat.toDigitsCore]
    by_cases h : n / 10 = 0
    · simp only [h, if_true]
      intro c hc
      rcases List.mem_cons.1 hc with rfl | hc
      · exact digitChar_is_digit (n % 10) (by omega)
      · exact hds c hc
    · simp only [h, if_false]
      refine ih (n / 10) _ ?_
      intro c hc
      rcases List.mem_cons.1 hc with rfl | hc
      · exact digitChar_is_digit (n % 10) (by omega)
      · exact hds c hc

theorem repr_digits (n : Nat) :
    ∀ c ∈ (Nat.repr n).data, 48 ≤ c.toNat ∧ c.toNat ≤ 57 := by
  have : (Nat.repr n).data = Nat.toDigits 10 n := rfl
  rw [this]
  exact toDigitsCore_digits (n + 1) n [] (by simp)

theorem foldl_all_zeros (l : List Char) (hl : ∀ c ∈ l, c = '0') :
    List.foldl (fun a c => a * 10 + (c.toNat - 48)) 0 l = 0 := by
  induction l with
  | nil => rfl
  | cons c rest ih =>
    have hc : c = '0' := hl c (by simp)
    subst hc
    simp only [List.foldl]
    exact ih (fun c hc => hl c (by simp [hc]))

theorem repr_all_zeros (n : Nat) (h : ∀ c ∈ (Nat.repr n).data, c = '0') : n = 0 := by
  have hdata : (Nat.repr n).data = Nat.toDigits 10 n := rfl
  rw [hdata] at h
  have := readBack_toDigits n
  rw [foldl_all_zeros _ h] at this
  omega

theorem head?_dropWhile {α : Type} (p : α → Bool) (l : List α) (c : α)
    (h : (l.dropWhile p).head? = some c) : p c = false := by
  induction l with
  | nil => simp [List.dropWhile] at h
  | cons a rest ih =>
    rw [List.dropWhile_cons] at h
    by_cases hpa : p a = true
    · rw [if_pos hpa] at h
      exact ih h
    · rw [if_neg hpa] at h
      simp only [List.head?_cons, Option.some.injEq] at h
      subst h
      simpa using hpa

theorem stripTrailingZeros_getLast? (s : String) :
    (stripTrailingZeros s).data.getLast? ≠ some '0' := by
  intro h
  unfold stripTrailingZeros at h
  rw [List.getLast?_reverse] at h
  have := head?_dropWhile (fun c => c == '0') s.data.reverse '0' h
  simp at this

theorem stripTrailingZeros_eq_empty_iff (s : String) :
    stripTrailingZeros s = "" ↔ ∀ c ∈ s.data, c = '0' := by
  unfold stripTrailingZeros
  constructor
  · intro h c hc
    have hdata : ((s.data.reverse.dropWhile (fun c => c == '0')).reverse) = [] :=
      congrArg String.data h
    rw [List.reverse_eq_nil_iff] at hdata
    rw [List.dropWhile_eq_nil_iff] at hdata
    have := hdata c (by simpa using hc)
    simpa using this
  · intro h
    have : s.data.reverse.dropWhile (fun c => c == '0') = [] := by
      rw [List.dropWhile_eq_nil_iff]
      intro a ha
      have := h a (by simpa using ha)
      simp [this]
    show String.mk _ = ""
    rw [this]
    rfl

theorem mem_stripTrailingZeros (s : String) (c : Char)
    (h : c ∈ (stripTrailingZeros s).data) : c ∈ s.data := by
  unfold stripTrailingZeros at h
  rw [List.mem_reverse] at h
  have hsub := List.dropWhile_sublist (l := s.data.reverse) (p := fun c => c == '0')
  have := hsub.subset h
  simpa using this

theorem mem_padStart7 (s : String) (c : Char) (h : c ∈ (padStart7 s).data) :
    c = '0' ∨ c ∈ s.data := by
  unfold padStart7 at h
  rcases List.mem_append.1 h with h | h
  · exact Or.inl (List.eq_of_mem_replicate h)
  · exact Or.inr h

theorem frac_empty_iff (r : Nat) :
    stripTrailingZeros (padStart7 (Nat.repr r)) = "" ↔ r = 0 := by
  constructor
  · intro h
    rw [stripTrailingZeros_eq_empty_iff] at h
    refine repr_all_zeros r ?_
    intro c hc
    refine h c ?_
    unfold padStart7
    exact List.mem_append.2 (Or.inr hc)
  · intro h
    subst h
    decide

theorem data_empty_eq : ("" : String).data = ([] : List Char) := rfl

theorem ofNat_not_neg (m : Nat) : ¬ ((Int.ofNat m) < 0) := by
  rw [Int.ofNat_eq_natCast]
  omega

theorem natAbs_ofNat_eq (m : Nat) : (Int.ofNat m).natAbs = m := rfl

theorem format_sign_split (n : Int) :
    formatStroopsAsXlm n = (if n < 0 then "-" else "") ++ formatStroopsAsXlm (Int.ofNat n.natAbs) := by
  apply String.ext
  simp only [formatStroopsAsXlm, natAbs_ofNat_eq, if_neg (ofNat_not_neg n.natAbs),
    String.data_append, data_empty_eq, List.nil_append, List.append_assoc]

theorem format_nonneg_split (m : Nat) :
    formatStroopsAsXlm (Int.ofNat m) =
      Nat.repr (m / STROOPS_PER_XLM) ++
        (if stripTrailingZeros (padStart7 (Nat.repr (m % STROOPS_PER_XLM))) = ""
         then ""
         else "." ++ stripTrailingZeros (padStart7 (Nat.repr (m % STROOPS_PER_XLM)))) := by
  apply String.ext
  simp only [formatStroopsAsXlm, natAbs_ofNat_eq, if_neg (ofNat_not_neg m),
    String.data_append, data_empty_eq, List.nil_append, List.append_assoc]

theorem format_no_minus (m : Nat) : '-' ∉ (formatStroopsAsXlm (Int.ofNat m)).data := by
  intro hmem
  rw [format_nonneg_split] at hmem
  rw [String.data_append] at hmem
  rcases List.mem_append.1 hmem with h | h
  · have := repr_digits (m / STROOPS_PER_XLM) '-' h
    revert this
    decide
  · by_cases hfrac : stripTrailingZeros (padStart7 (Nat.repr (m % STROOPS_PER_XLM))) = ""
    · rw [if_pos hfrac] at h
      simp at h
    · rw [if_neg hfrac] at h
      rw [String.data_append] at h
      rcases List.mem_append.1 h with h2 | h2
      · simp at h2
      · have h3 := mem_stripTrailingZeros _ _ h2
        rcases mem_padStart7 _ _ h3 with h4 | h4
        · simp at h4
        · have := repr_digits (m % STROOPS_PER_XLM) '-' h4
          revert this
          decide

inductive ScVal where
  | scvI128 (hi : Int) (lo : Nat)
  | scvU128 (hi : Nat) (lo : Nat)
  | scvI64 (v : Int)
  | scvU64 (v : Nat)
  | scvI32 (v : Int)
  | scvU32 (v : Nat)
  | scvVoid
  | scvOther (name : String)
deriving DecidableEq, Repr

def decodeBalance : ScVal → Except String String
  | .scvI128 hi lo => .ok (formatStroopsAsXlm (hi * 18446744073709551616 + lo))
  | .scvU128 hi lo => .ok (formatStroopsAsXlm ((hi : Int) * 18446744073709551616 + lo))
  | .scvI64 v => .ok (formatStroopsAsXlm v)
  | .scvU64 v => .ok (formatStroopsAsXlm v)
  | .scvI32 v => .ok (formatStroopsAsXlm v)
  | .scvU32 v => .ok (formatStroopsAsXlm v)
  | .scvVoid => .ok "0"
  | .scvOther name => .error ("Unexpected balance value type: " ++ name)


/-- C3: `decodeBalance` maps `signed128{hi:0, lo:25000000}` to `"2.5"`,
`signed128{hi:0, lo:0}` to `"0"`, and the void tag to `"0"`, and fails
with the `Unexpected balance value type` error for any tag outside the
supported set; and for every integer stroop value the rendered string is
a single optional leading minus sign applied to the whole string, the
integer part rendered verbatim, and a fractional part appended exactly
when the remainder at scale 10,000,000 is nonzero, with trailing zeros
stripped (the fractional part never ends in a zero digit) and no
trailing decimal point (the dot is emitted only together with a
non-empty fractional part). -/
theorem claim_c3_decode_and_format (name : String) (n : Int) :
    decodeBalance (.scvI128 0 25000000) = .ok "2.5" ∧
    decodeBalance (.scvI128 0 0) = .ok "0" ∧
    decodeBalance .scvVoid = .ok "0" ∧
    decodeBalance (.scvOther name) = .error ("Unexpected balance value type: " ++ name) ∧
    formatStroopsAsXlm n =
      (if n < 0 then "-" else "") ++ formatStroopsAsXlm (Int.ofNat n.natAbs) ∧
    '-' ∉ (formatStroopsAsXlm (Int.ofNat n.natAbs)).data ∧
    formatStroopsAsXlm (Int.ofNat n.natAbs) =
      Nat.repr (n.natAbs / STROOPS_PER_XLM) ++
        (if stripTrailingZeros (padStart7 (Nat.repr (n.natAbs % STROOPS_PER_XLM))) = ""
         then ""
         else "." ++ stripTrailingZeros (padStart7 (Nat.repr (n.natAbs % STROOPS_PER_XLM)))) ∧
    (stripTrailingZeros (padStart7 (Nat.repr (n.natAbs % STROOPS_PER_XLM))) = "" ↔
      n.natAbs % STROOPS_PER_XLM = 0) ∧
    (stripTrailingZeros (padStart7 (Nat.repr (n.natAbs % STROOPS_PER_XLM)))).data.getLast? ≠
      some '0' := by
  refine ⟨rfl, rfl, rfl, rfl, format_sign_split n, format_no_minus n.natAbs,
    format_nonneg_split n.natAbs, frac_empty_iff _, stripTrailingZeros_getLast? _⟩

/-! ## EntryAbsent classification (App.tsx lines 285-295 and 297-362) -/

/-- Lower-casing of a string, character by character (the embedding of
JavaScript `toLowerCase`, which agrees on the ASCII messages compared
here). -/
def strToLower (s : String) : String :=
  ⟨s.data.map Char.toLower⟩

/-- Embedding of `isMissingBalanceError` (App.tsx lines 285-295):
case-insensitively pattern-match the failure message against the known
absent-ledger-entry shapes. -/
def isMissingBalanceError (error : ErrValue) : Bool :=
  let message := strToLower (getUnknownErrorMessage error "")
  strIncludes message "not found" ||
  strIncludes message "resource missing" ||
  strIncludes message "missing entry" ||
  strIncludes message "missingvalue" ||
  strIncludes message "entry does not exist" ||
  strIncludes message "ledger entry"

/-- Embedding of the try/catch structure of `fetchNativeBalanceXlm`
(App.tsx lines 297-362).  The RPC interaction is represented by its
result: either the queried tagged wire value or the error the query
rejected with.  A decode failure (`Unexpected balance value type`) is
thrown inside the `try` and therefore also reaches the same catch
clause, as `ErrValue.errorMsg`. -/
def fetchNativeBalanceXlm (queryResult : Except ErrValue ScVal) :
    Except String String :=
  let attempt : Except ErrValue String :=
    match queryResult with
    | .error e => .error e
    | .ok v =>
      match decodeBalance v with
      | .ok s => .ok s
      | .error msg => .error (.errorMsg msg)
  match attempt with
  | .ok s => .ok s
  | .error e =>
    if isMissingBalanceError e then .ok "0"
    else .error (getUnknownErrorMessage e "Failed to load balance")

/-- C4: for every balance-query failure whose message, compared
case-insensitively, indicates an absent ledger entry — it contains
"not found", "missing entry", or "entry does not exist" — the balance
query returns the zero balance `"0"` rather than an error outcome. -/
theorem claim_c4_entry_absent (e : ErrValue)
    (h : strIncludes (strToLower (getUnknownErrorMessage e "")) "not found" = true ∨
         strIncludes (strToLower (getUnknownErrorMessage e "")) "missing entry" = true ∨
         strIncludes (strToLower (getUnknownErrorMessage e "")) "entry does not exist" = true) :
    fetchNativeBalanceXlm (.error e) = .ok "0" := by
  have hmiss : isMissingBalanceError e = true := by
    unfold isMissingBalanceError
    rcases h with h | h | h <;> simp [h]
  simp [fetchNativeBalanceXlm, hmiss]

/-- Witness for C4: the exact failure message `"ledger entry not found"`
yields balance `"0"`. -/
theorem claim_c4_entry_absent_witness :
    fetchNativeBalanceXlm (.error (.errorMsg "ledger entry not found")) = .ok "0" :=
  claim_c4_entry_absent (.errorMsg "ledger entry not found") (Or.inl (by decide))

/-! ## Startup restore with session-expiry reauthentication

Embedding of the `restore` closure in the startup effect of the
`part_001` revision of the app component (unnamed source, lines 549-616),
the revision that carries the session-expiry fallback.  The two
`kit.connectWallet` calls are represented by their race outcomes against
the guard timers; the stored session record read through
`CapacitorStorageAdapter.getSession()` is an input.  The component is
mounted throughout (`cancelled` stays false). -/

/-- Result of a successful `kit.connectWallet`. -/
structure ConnectedWallet where
  contractId : String
  credentialId : String
deriving DecidableEq, Repr

/-- Embedding of `truncate` (App.tsx lines 86-92). -/
def truncate (value : String) (size : Nat) : String :=
  if value.length ≤ size * 2 then value
  else ⟨value.data.take size⟩ ++ "..." ++ ⟨value.data.drop (value.data.length - size)⟩

/-- Observable outcome of one run of the startup `restore` closure:
the connection fields it assigned, every value assigned to `busy` during
the run in order, the final `busy` value, the error banner, which guarded
external calls were made (operation and timeout budget), the final
`restoring` flag, and the log entries pushed. -/
structure RestoreResult where
  contractId : Option String
  credentialId : Option String
  busyTrace : List (Option Operation)
  finalBusy : Option Operation
  errorBanner : Option String
  guardedCalls : List (Operation × Nat)
  restoring : Bool
  logs : List LogEntry
deriving DecidableEq, Repr

/-- Embedding of the `restore` closure (part_001 lines 552-609).  It
reads the stored session and computes `hadExpiredSession` (truthy
`expiresAt` and `Date.now()` past it), then awaits the silent
`connectWallet` under the restore timeout.  A thrown failure goes to the
catch clause.  A connected result populates the session.  An empty
result with an expired stored session sets `busy(reauth)`, awaits the
interactive `connectWallet` under the reauth timeout, and clears `busy`
in the inner `finally`; an inner throw then still reaches the outer
catch.  Otherwise the run logs that no session was found.  `restoring`
is cleared in the outer `finally`. -/
def restoreRun (session : Option StoredSession) (now : Nat)
    (silentRace : RaceWinner (Option ConnectedWallet))
    (reauthRace : RaceWinner (Option ConnectedWallet))
    (timestamp : String) : RestoreResult :=
  let hadExpiredSession : Bool :=
    match session with
    | some s => decide (s.expiresAt ≠ 0) && decide (now > s.expiresAt)
    | none => false
  match withOperationTimeout .restore RESTORE_TIMEOUT_MS silentRace none with
  | .failure e =>
    let message := normalizeErrorMessage .restore e
    { contractId := none, credentialId := none,
      busyTrace := [], finalBusy := none,
      errorBanner := some message,
      guardedCalls := [(.restore, RESTORE_TIMEOUT_MS)],
      restoring := false,
      logs := pushLog ("restore: " ++ message) .error timestamp [] }
  | .value (some w) =>
    { contractId := some w.contractId, credentialId := some w.credentialId,
      busyTrace := [], finalBusy := none,
      errorBanner := none,
      guardedCalls := [(.restore, RESTORE_TIMEOUT_MS)],
      restoring := false,
      logs := pushLog "Restored previous wallet session." .success timestamp [] }
  | .value none =>
    if hadExpiredSession then
      let logs1 := pushLog
        "Previous session expired. Requesting interactive passkey authentication."
        .info timestamp []
      match withOperationTimeout .reauth REAUTH_TIMEOUT_MS reauthRace none with
      | .value (some w) =>
        { contractId := some w.contractId, credentialId := some w.credentialId,
          busyTrace := [some .reauth, none], finalBusy := none,
          errorBanner := none,
          guardedCalls := [(.restore, RESTORE_TIMEOUT_MS), (.reauth, REAUTH_TIMEOUT_MS)],
          restoring := false,
          logs := pushLog
            ("Reconnected after session expiry: " ++ truncate w.contractId 10)
            .success timestamp logs1 }
      | .value none =>
        { contractId := none, credentialId := none,
          busyTrace := [some .reauth, none], finalBusy := none,
          errorBanner := none,
          guardedCalls := [(.restore, RESTORE_TIMEOUT_MS), (.reauth, REAUTH_TIMEOUT_MS)],
          restoring := false,
          logs := pushLog "No wallet selected after session expiry." .error timestamp logs1 }
      | .failure e =>
        let message := normalizeErrorMessage .restore e
        { contractId := none, credentialId := none,
          busyTrace := [some .reauth, none], finalBusy := none,
          errorBanner := some message,
          guardedCalls := [(.restore, RESTORE_TIMEOUT_MS), (.reauth, REAUTH_TIMEOUT_MS)],
          restoring := false,
          logs := pushLog ("restore: " ++ message) .error timestamp logs1 }
    else
      { contractId := none, credentialId := none,
        busyTrace := [], finalBusy := none,
        errorBanner := none,
        guardedCalls := [(.restore, RESTORE_TIMEOUT_MS)],
        restoring := false,
        logs := pushLog "No previous session found. Connect or create a wallet." .info timestamp [] }

/-- Counterexample to C2 as stated: a stored session record with
`expiresAt` in the past together with a silent restore connect that
FAILS (here: exceeds the restore timeout, so the guarded await throws)
does not transition through `busy(reauth)` — the thrown failure reaches
the catch clause before the expiry check, so the run ends with the
classified restore error, no interactive reauthentication, and no
`busy(reauth)` assignment.  Only an empty (falsy) silent-connect result
takes the reauthentication path. -/
theorem claim_c2_counterexample :
    some Operation.reauth ∉
      (restoreRun (some ⟨"CDLZ", "KEY1", 1⟩) 2 .timerFired
        (.settled (.value (some ⟨"CDLZ", "KEY1"⟩))) "t").busyTrace ∧
    (restoreRun (some ⟨"CDLZ", "KEY1", 1⟩) 2 .timerFired
        (.settled (.value (some ⟨"CDLZ", "KEY1"⟩))) "t").guardedCalls =
      [(.restore, RESTORE_TIMEOUT_MS)] ∧
    (restoreRun (some ⟨"CDLZ", "KEY1", 1⟩) 2 .timerFired
        (.settled (.value (some ⟨"CDLZ", "KEY1"⟩))) "t").errorBanner =
      some "Session restore timed out. You can continue manually." := by
  refine ⟨by decide, rfl, rfl⟩

/-- C2 (amended): on startup, if a stored session record exists whose
`expiresAt` is truthy (nonzero) and lies in the past, and the silent
restore connect RETURNS AN EMPTY RESULT, the controller transitions
through `busy(reauth)`, performs an interactive connect under the longer
`REAUTH_TIMEOUT_MS` budget, and then returns to idle (`busy` is null and
`restoring` is cleared), whatever the interactive attempt's outcome.
If the silent restore connect instead fails (rejects or times out), the
run reports the classified restore error and does not reauthenticate. -/
theorem claim_c2_reauth_on_expired (s : StoredSession) (now : Nat)
    (reauthRace : RaceWinner (Option ConnectedWallet)) (timestamp : String)
    (h0 : s.expiresAt ≠ 0) (h1 : s.expiresAt < now) :
    some Operation.reauth ∈
      (restoreRun (some s) now (.settled (.value none)) reauthRace timestamp).busyTrace ∧
    (Operation.reauth, REAUTH_TIMEOUT_MS) ∈
      (restoreRun (some s) now (.settled (.value none)) reauthRace timestamp).guardedCalls ∧
    (restoreRun (some s) now (.settled (.value none)) reauthRace timestamp).finalBusy = none ∧
    (restoreRun (some s) now (.settled (.value none)) reauthRace timestamp).restoring = false := by
  have hexp : (decide (s.expiresAt ≠ 0) && decide (now > s.expiresAt)) = true := by
    simp [h0]
    omega
  simp only [restoreRun, withOperationTimeout, hexp, if_true]
  cases reauthRace with
  | timerFired => simp
  | settled o =>
    cases o with
    | failure e => simp
    | value w =>
      cases w with
      | none => simp
      | some w => simp

/-- Witness for C2 (amended): concrete expired session, empty silent
restore result, interactive connect that succeeds. -/
theorem claim_c2_reauth_on_expired_witness :
    some Operation.reauth ∈
      (restoreRun (some ⟨"CDLZ", "KEY1", 1⟩) 2 (.settled (.value none))
        (.settled (.value (some ⟨"CDLZ", "KEY1"⟩))) "t").busyTrace ∧
    (Operation.reauth, REAUTH_TIMEOUT_MS) ∈
      (restoreRun (some ⟨"CDLZ", "KEY1", 1⟩) 2 (.settled (.value none))
        (.settled (.value (some ⟨"CDLZ", "KEY1"⟩))) "t").guardedCalls ∧
    (restoreRun (some ⟨"CDLZ", "KEY1", 1⟩) 2 (.settled (.value none))
        (.settled (.value (some ⟨"CDLZ", "KEY1"⟩))) "t").finalBusy = none ∧
    (restoreRun (some ⟨"CDLZ", "KEY1", 1⟩) 2 (.settled (.value none))
        (.settled (.value (some ⟨"CDLZ", "KEY1"⟩))) "t").restoring = false :=
  claim_c2_reauth_on_expired ⟨"CDLZ", "KEY1", 1⟩ 2
    (.settled (.value (some ⟨"CDLZ", "KEY1"⟩))) "t" (by decide) (by decide)
